import Mathlib

/-!
Verification of the translation quality-verification engine (`verifier.py`)
against its natural-language specification.

The Python source is shallowly embedded: strings are `String`/`List Char`,
Python `set` operations are modelled by first-occurrence deduplicated lists
(Python set iteration order is unspecified; the embedding fixes extraction
order), Python float arithmetic on scores is modelled by exact arithmetic
(`Nat`/`Int`/`ℚ`; `int(...)` truncation of a non-negative value is floor),
and every external call (Ollama LLM, Wikipedia API) is an oracle argument:
`none` models a network failure or an unparseable response, `some r` models
a successfully parsed structured response `r`.  Regular-expression matching
is embedded by direct scanners implementing the exact leftmost,
non-overlapping semantics of the concrete patterns in the source.
-/

/-! ## Basic string helpers (Python `str` operations) -/

/-- Python whitespace class `\s` over ASCII: space, tab, newline, carriage
return, vertical tab, form feed. -/
def pyIsSpace (c : Char) : Bool :=
  c = ' ' || c = '\t' || c = '\n' || c = '\r' || c = '\x0b' || c = '\x0c'

/-- Python `str.strip()`: remove leading and trailing whitespace. -/
def pyStrip (cs : List Char) : List Char :=
  ((cs.dropWhile pyIsSpace).reverse.dropWhile pyIsSpace).reverse

/-- Substring containment, Python `pat in s`. -/
def containsSub (pat : List Char) : List Char → Bool
  | [] => pat.isPrefixOf []
  | c :: rest => pat.isPrefixOf (c :: rest) || containsSub pat rest

/-- Python `s.replace(pat, rep, 1)`: replace the first occurrence only.
`pat` is non-empty at every call site. -/
def replaceFirstL (pat rep : List Char) : List Char → List Char
  | [] => []
  | c :: rest =>
    if pat.isPrefixOf (c :: rest) then rep ++ (c :: rest).drop pat.length
    else c :: replaceFirstL pat rep rest

/-- Python `s.replace(pat, rep)`: replace all non-overlapping occurrences,
left to right.  Fuel-based so that it reduces in the kernel. -/
def replaceAllL (fuel : Nat) (pat rep : List Char) (cs : List Char) : List Char :=
  match fuel, cs with
  | 0, cs => cs
  | _, [] => []
  | fuel + 1, c :: rest =>
    if pat.isPrefixOf (c :: rest) then
      rep ++ replaceAllL fuel pat rep ((c :: rest).drop pat.length)
    else c :: replaceAllL fuel pat rep rest

/-- String-level wrappers used by the verifier embedding. -/
def containsStr (pat s : String) : Bool := containsSub pat.data s.data

def replaceFirstStr (pat rep s : String) : String :=
  String.mk (replaceFirstL pat.data rep.data s.data)

def replaceAllStr (pat rep s : String) : String :=
  String.mk (replaceAllL (s.data.length + 1) pat.data rep.data s.data)

/-- Python slicing `s[:n]`. -/
def strTake (n : Nat) (s : String) : String := String.mk (s.data.take n)

/-- Python slicing `s[a : len - b]` (used for `t[1:-1]` and `t[2:-2]`). -/
def strSlice (a b : Nat) (s : String) : String :=
  String.mk ((s.data.drop a).take (s.data.length - a - b))

/-- Python `s.lower()` (ASCII; the glossary keys are ASCII). -/
def strLower (s : String) : String := String.mk (s.data.map Char.toLower)

/-- Split on every non-overlapping occurrence of a separator, Python
`s.split(sep)`: empty segments are kept and the result is never empty. -/
def splitOnSub (fuel : Nat) (sep : List Char) (acc : List Char) (cs : List Char) :
    List (List Char) :=
  match fuel, cs with
  | 0, cs => [acc.reverse ++ cs]
  | _, [] => [acc.reverse]
  | fuel + 1, c :: rest =>
    if sep.isPrefixOf (c :: rest) then
      acc.reverse :: splitOnSub fuel sep [] ((c :: rest).drop sep.length)
    else splitOnSub fuel sep (c :: acc) rest

/-- First-occurrence deduplication: the model of building a Python `set`
from a list (iteration order fixed as first-extraction order). -/
def dedupF : List String → List String
  | [] => []
  | x :: xs => x :: (dedupF xs).filter (fun y => y ≠ x)

/-! ## Regex scanners for the token extractor

Each scanner implements one concrete pattern of `MATH_PATTERNS`,
`LATEX_COMMANDS` or `VAR_PATTERN` with Python `re.finditer` semantics:
leftmost match, non-overlapping, continue after the end of each match,
retry at the next position on failure. -/

/-- Pattern `\$[^$]+?\$` (inline math): a dollar, at least one non-dollar
character (lazy, hence up to the next dollar), a dollar. -/
def scanInline (fuel : Nat) (cs : List Char) : List (List Char) :=
  match fuel, cs with
  | 0, _ => []
  | _, [] => []
  | fuel + 1, '$' :: rest =>
    let body := rest.takeWhile (fun c => c ≠ '$')
    match rest.dropWhile (fun c => c ≠ '$') with
    | [] => scanInline fuel rest
    | _ :: tail =>
      if body = [] then scanInline fuel rest
      else ('$' :: body ++ ['$']) :: scanInline fuel tail
  | fuel + 1, _ :: rest => scanInline fuel rest

/-- Pattern `\$\$[^$]+?\$\$` (display math). -/
def scanDisplay (fuel : Nat) (cs : List Char) : List (List Char) :=
  match fuel, cs with
  | 0, _ => []
  | _, [] => []
  | fuel + 1, '$' :: '$' :: rest =>
    let body := rest.takeWhile (fun c => c ≠ '$')
    match rest.dropWhile (fun c => c ≠ '$') with
    | _ :: '$' :: tail2 =>
      if body = [] then scanDisplay fuel ('$' :: rest)
      else ('$' :: '$' :: body ++ ['$', '$']) :: scanDisplay fuel tail2
    | _ => scanDisplay fuel ('$' :: rest)
  | fuel + 1, _ :: rest => scanDisplay fuel rest

/-- Pattern `\\\([^)]+?\\\)`: literal backslash-paren delimiters, content
without a closing paren; the closing `)` must be preceded by `\`. -/
def scanParen (fuel : Nat) (cs : List Char) : List (List Char) :=
  match fuel, cs with
  | 0, _ => []
  | _, [] => []
  | fuel + 1, '\\' :: '(' :: rest =>
    let body := rest.takeWhile (fun c => c ≠ ')')
    match rest.dropWhile (fun c => c ≠ ')') with
    | _ :: tail =>
      if 2 ≤ body.length ∧ body.getLast? = some '\\' then
        ('\\' :: '(' :: (body ++ [')'])) :: scanParen fuel tail
      else scanParen fuel ('(' :: rest)
    | [] => scanParen fuel ('(' :: rest)
  | fuel + 1, _ :: rest => scanParen fuel rest

/-- Pattern `\\\[[^\]]+?\\\]`. -/
def scanBracket (fuel : Nat) (cs : List Char) : List (List Char) :=
  match fuel, cs with
  | 0, _ => []
  | _, [] => []
  | fuel + 1, '\\' :: '[' :: rest =>
    let body := rest.takeWhile (fun c => c ≠ ']')
    match rest.dropWhile (fun c => c ≠ ']') with
    | _ :: tail =>
      if 2 ≤ body.length ∧ body.getLast? = some '\\' then
        ('\\' :: '[' :: (body ++ [']'])) :: scanBracket fuel tail
      else scanBracket fuel ('[' :: rest)
    | [] => scanBracket fuel ('[' :: rest)
  | fuel + 1, _ :: rest => scanBracket fuel rest

/-- Literal pattern: all non-overlapping occurrences of `pat`. -/
def scanLit (fuel : Nat) (pat : List Char) (cs : List Char) : List (List Char) :=
  match fuel, cs with
  | 0, _ => []
  | _, [] => []
  | fuel + 1, c :: rest =>
    if pat.isPrefixOf (c :: rest) then pat :: scanLit fuel pat ((c :: rest).drop pat.length)
    else scanLit fuel pat rest

/-- Pattern `\\frac\{[^}]*\}\{[^}]*\}`: both groups run to the first `}`. -/
def scanFrac (fuel : Nat) (cs : List Char) : List (List Char) :=
  match fuel, cs with
  | 0, _ => []
  | _, [] => []
  | fuel + 1, c :: rest =>
    if ("\\frac".data ++ ['{']).isPrefixOf (c :: rest) then
      let after := (c :: rest).drop 6
      let body1 := after.takeWhile (fun ch => ch ≠ '}')
      match after.dropWhile (fun ch => ch ≠ '}') with
      | _ :: '{' :: r2 =>
        let body2 := r2.takeWhile (fun ch => ch ≠ '}')
        match r2.dropWhile (fun ch => ch ≠ '}') with
        | _ :: tail =>
          ("\\frac".data ++ '{' :: body1 ++ '}' :: '{' :: body2 ++ ['}']) ::
            scanFrac fuel tail
        | [] => scanFrac fuel rest
      | _ => scanFrac fuel rest
    else scanFrac fuel rest

/-- Pattern `\\name\{[^}]*\}` (used for `\text`, `\mathrm`,
`\operatorname`): one brace group running to the first `}`. -/
def scanBraceCmd (fuel : Nat) (name : List Char) (cs : List Char) : List (List Char) :=
  match fuel, cs with
  | 0, _ => []
  | _, [] => []
  | fuel + 1, c :: rest =>
    if (name ++ ['{']).isPrefixOf (c :: rest) then
      let after := (c :: rest).drop (name.length + 1)
      let body := after.takeWhile (fun ch => ch ≠ '}')
      match after.dropWhile (fun ch => ch ≠ '}') with
      | _ :: tail => (name ++ '{' :: body ++ ['}']) :: scanBraceCmd fuel name tail
      | [] => scanBraceCmd fuel name rest
    else scanBraceCmd fuel name rest

/-- Pattern `\\name\{X\}` with `X` a single character in a class (used for
`\mathbb{[A-Z]}`, `\mathcal{[A-Z]}`, `\mathfrak{[a-z]}`). -/
def scanClassCmd (fuel : Nat) (name : List Char) (lo hi : Char) (cs : List Char) :
    List (List Char) :=
  match fuel, cs with
  | 0, _ => []
  | _, [] => []
  | fuel + 1, c :: rest =>
    match (c :: rest).drop (name.length + 1) with
    | x :: '}' :: tail =>
      if (name ++ ['{']).isPrefixOf (c :: rest) ∧ lo ≤ x ∧ x ≤ hi then
        (name ++ '{' :: x :: ['}']) :: scanClassCmd fuel name lo hi tail
      else scanClassCmd fuel name lo hi rest
    | _ => scanClassCmd fuel name lo hi rest

/-! Variable pattern
`(?<![a-zA-Z\\])([A-Za-z])(?:_\{?[^}\s]*\}?)?(?:\^\{?[^}\s]*\}?)?`:
a letter not preceded by a letter or backslash, an optional subscript part
and an optional superscript part, each an optional `{`, a greedy run of
non-`}`/non-space characters, and an optional closing `}`. -/

/-- One optional modifier group of `VAR_PATTERN`, introduced by `mark`
(`_` or `^`).  Returns the consumed characters and the rest. -/
def parseMod (mark : Char) (cs : List Char) : List Char × List Char :=
  match cs with
  | [] => ([], [])
  | m :: rest =>
    if m = mark then
      let (ob, rest1) :=
        match rest with
        | '{' :: r => (['{'], r)
        | _ => (([] : List Char), rest)
      let body := rest1.takeWhile (fun ch => ¬(ch = '}' ∨ pyIsSpace ch))
      let rest2 := rest1.drop body.length
      let (cb, rest3) :=
        match rest2 with
        | '}' :: r => (['}'], r)
        | _ => (([] : List Char), rest2)
      (m :: (ob ++ body ++ cb), rest3)
    else ([], cs)

/-- Scanner for `VAR_PATTERN`, carrying the previous character for the
negative lookbehind. -/
def scanVars (fuel : Nat) (prev : Option Char) (cs : List Char) : List (List Char) :=
  match fuel, cs with
  | 0, _ => []
  | _, [] => []
  | fuel + 1, c :: rest =>
    if c.isAlpha && (match prev with
        | some p => !(p.isAlpha || p == '\\')
        | none => true) then
      let (subPart, rest1) := parseMod '_' rest
      let (supPart, rest2) := parseMod '^' rest1
      let tok := c :: (subPart ++ supPart)
      tok :: scanVars fuel tok.getLast? rest2
    else scanVars fuel (some c) rest

/-! ## The token extractor (`TranslationVerifier._extract_math_tokens`) -/

/-- One entry of the `LATEX_COMMANDS` pattern list. -/
inductive CmdPat where
  | frac
  | lit (s : String)
  | brace (name : String)
  | cls (name : String) (lo hi : Char)
deriving DecidableEq

/-- Run one `LATEX_COMMANDS` pattern over the whole text. -/
def runCmdPat (p : CmdPat) (cs : List Char) : List (List Char) :=
  match p with
  | .frac => scanFrac (cs.length + 1) cs
  | .lit s => scanLit (cs.length + 1) s.data cs
  | .brace n => scanBraceCmd (cs.length + 1) n.data cs
  | .cls n lo hi => scanClassCmd (cs.length + 1) n.data lo hi cs

/-- The `LATEX_COMMANDS` list of `verifier.py`, in source order. -/
def LATEX_COMMANDS : List CmdPat :=
  [.frac,
   .lit "\\sum", .lit "\\prod", .lit "\\int",
   .lit "\\lim", .lit "\\inf", .lit "\\sup",
   .lit "\\sqrt", .lit "\\log", .lit "\\ln", .lit "\\exp",
   .lit "\\sin", .lit "\\cos", .lit "\\tan",
   .lit "\\alpha", .lit "\\beta", .lit "\\gamma", .lit "\\delta",
   .lit "\\epsilon", .lit "\\zeta", .lit "\\eta", .lit "\\theta",
   .lit "\\lambda", .lit "\\mu", .lit "\\nu", .lit "\\pi",
   .lit "\\rho", .lit "\\sigma", .lit "\\tau", .lit "\\phi",
   .lit "\\chi", .lit "\\psi", .lit "\\omega",
   .lit "\\Gamma", .lit "\\Delta", .lit "\\Theta", .lit "\\Lambda",
   .lit "\\Sigma", .lit "\\Phi", .lit "\\Psi", .lit "\\Omega",
   .cls "\\mathbb" 'A' 'Z',
   .cls "\\mathcal" 'A' 'Z',
   .cls "\\mathfrak" 'a' 'z',
   .brace "\\text",
   .brace "\\mathrm",
   .brace "\\operatorname",
   .lit "\\subset", .lit "\\supset", .lit "\\subseteq", .lit "\\supseteq",
   .lit "\\in", .lit "\\notin", .lit "\\cup", .lit "\\cap",
   .lit "\\times", .lit "\\otimes", .lit "\\oplus",
   .lit "\\to", .lit "\\rightarrow", .lit "\\leftarrow", .lit "\\mapsto",
   .lit "\\infty", .lit "\\partial", .lit "\\nabla",
   .lit "\\forall", .lit "\\exists",
   .lit "\\leq", .lit "\\geq", .lit "\\neq", .lit "\\approx", .lit "\\equiv"]

/-- All full math regions of the text (`MATH_PATTERNS`, in source order). -/
def mathRegionL (cs : List Char) : List (List Char) :=
  scanInline (cs.length + 1) cs ++ scanDisplay (cs.length + 1) cs ++
    scanParen (cs.length + 1) cs ++ scanBracket (cs.length + 1) cs

/-- `TranslationVerifier._extract_math_tokens`: full math regions, then
`LATEX_COMMANDS` matches, then single-letter variables found only inside
the math regions. -/
def extractMathTokens (s : String) : List String :=
  let cs := s.data
  let regions := mathRegionL cs
  let cmdToks := (LATEX_COMMANDS.map (fun p => runCmdPat p cs)).flatten
  let varToks := (regions.map (fun r => scanVars (r.length + 1) none r)).flatten
  ((regions ++ cmdToks) ++ varToks).map String.mk

/-! ## CheckResult and configuration -/

/-- `CheckResult`: the constructor clamps the score into `[0, 100]`
(`self.score = max(0, min(100, score))`). -/
structure CheckResult where
  score : Int
  issues : List String
  auto_fixed : List String
  flagged : List String
deriving DecidableEq

/-- `CheckResult.__init__` (with `None` defaults replaced by `[]`). -/
def mkCheckResult (score : Int) (issues auto_fixed flagged : List String) : CheckResult :=
  { score := max 0 (min 100 score), issues := issues,
    auto_fixed := auto_fixed, flagged := flagged }

/-- `MATH_GLOSSARY` from `translator.py` (dict in insertion order). -/
def MATH_GLOSSARY : List (String × String) :=
  [("group", "군"), ("ring", "환"), ("field", "체"),
   ("vector space", "벡터 공간"), ("manifold", "다양체"),
   ("topology", "위상수학"), ("topological", "위상적"),
   ("homeomorphism", "위상동형사상"), ("isomorphism", "동형사상"),
   ("homomorphism", "준동형사상"), ("automorphism", "자기동형사상"),
   ("endomorphism", "자기준동형사상"), ("Abelian", "아벨"),
   ("abelian", "아벨"), ("commutative", "가환"), ("associative", "결합"),
   ("distributive", "분배"), ("identity element", "항등원"),
   ("inverse", "역원"), ("subgroup", "부분군"),
   ("normal subgroup", "정규 부분군"), ("quotient group", "몫군"),
   ("kernel", "핵"), ("image", "상"), ("surjective", "전사"),
   ("injective", "단사"), ("bijective", "전단사"),
   ("polynomial", "다항식"), ("eigenvalue", "고유값"),
   ("eigenvector", "고유벡터"), ("determinant", "행렬식"),
   ("matrix", "행렬"), ("trace", "대각합"), ("linear", "선형"),
   ("nonlinear", "비선형"), ("continuous", "연속"),
   ("differentiable", "미분가능"), ("integrable", "적분가능"),
   ("holomorphic", "정칙"), ("meromorphic", "유리형"),
   ("analytic", "해석적"), ("compact", "컴팩트"),
   ("open set", "열린집합"), ("closed set", "닫힌집합"),
   ("bounded", "유계"), ("convergent", "수렴"), ("divergent", "발산"),
   ("sequence", "수열"), ("series", "급수"), ("limit", "극한"),
   ("derivative", "도함수"), ("integral", "적분"), ("measure", "측도"),
   ("probability", "확률"), ("random variable", "확률변수"),
   ("theorem", "정리"), ("lemma", "보조정리"), ("corollary", "따름정리"),
   ("conjecture", "추측"), ("proof", "증명"), ("axiom", "공리"),
   ("definition", "정의"), ("proposition", "명제"), ("prime", "소수"),
   ("irrational", "무리수"), ("rational", "유리수"), ("integer", "정수"),
   ("real number", "실수"), ("complex number", "복소수"),
   ("natural number", "자연수"), ("finite", "유한"),
   ("infinite", "무한"), ("countable", "가산"),
   ("uncountable", "비가산"), ("dimension", "차원"), ("degree", "차수"),
   ("order", "위수"), ("finitely generated", "유한 생성"),
   ("equivalence", "동치"), ("invariant", "불변량"),
   ("symmetry", "대칭"), ("permutation", "순열"), ("combination", "조합")]

/-- Read-only configuration of a `TranslationVerifier` instance:
`verify_types` plus the (process-wide) glossary table. -/
structure Config where
  verifyTypes : List String
  glossary : List (String × String)

/-- The default configuration of `TranslationVerifier.__init__`. -/
def cfgDefault : Config :=
  { verifyTypes := ["formula", "semantic", "logic", "research"],
    glossary := MATH_GLOSSARY }

/-! ## Module 1: formula integrity -/

/-- Scanner for `re.findall` with the patterns `<sup>(.*?)</sup>` and
`<sub>(.*?)</sub>`: `.` does not match a newline, the lazy group runs to
the earliest closing tag.  `tagBody` finds the group at one start. -/
def tagBody (fuel : Nat) (closeT : List Char) (acc : List Char) (cs : List Char) :
    Option (List Char × List Char) :=
  match fuel, cs with
  | 0, _ => none
  | _, [] => none
  | fuel + 1, c :: rest =>
    if closeT.isPrefixOf (c :: rest) then
      some (acc.reverse, (c :: rest).drop closeT.length)
    else if c = '\n' then none
    else tagBody fuel closeT (c :: acc) rest

/-- All group contents of non-overlapping `openT...closeT` matches. -/
def scanTagGroups (fuel : Nat) (openT closeT : List Char) (cs : List Char) :
    List (List Char) :=
  match fuel, cs with
  | 0, _ => []
  | _, [] => []
  | fuel + 1, c :: rest =>
    if openT.isPrefixOf (c :: rest) then
      match tagBody ((c :: rest).length + 1) closeT [] ((c :: rest).drop openT.length) with
      | some (body, after) => body :: scanTagGroups fuel openT closeT after
      | none => scanTagGroups fuel openT closeT rest
    else scanTagGroups fuel openT closeT rest

/-- Fix 1 of `_check_formula_integrity`: convert HTML `sup`/`sub` tags to
LaTeX superscripts/subscripts; each tag kind is logged once with a count. -/
def fixHtml (t : String) : String × List String :=
  let sups := scanTagGroups (t.data.length + 1) "<sup>".data "</sup>".data t.data
  let t1 :=
    if sups = [] then t
    else sups.foldl
      (fun acc s =>
        replaceAllStr ("<sup>" ++ String.mk s ++ "</sup>")
          ("^\x7b" ++ String.mk s ++ "\x7d") acc) t
  let log1 : List String :=
    if sups = [] then []
    else ["Converted " ++ toString sups.length ++ " HTML superscripts to LaTeX"]
  let subs := scanTagGroups (t1.data.length + 1) "<sub>".data "</sub>".data t1.data
  let t2 :=
    if subs = [] then t1
    else subs.foldl
      (fun acc s =>
        replaceAllStr ("<sub>" ++ String.mk s ++ "</sub>")
          ("_\x7b" ++ String.mk s ++ "\x7d") acc) t1
  let log2 : List String :=
    if subs = [] then []
    else ["Converted " ++ toString subs.length ++ " HTML subscripts to LaTeX"]
  (t2, log1 ++ log2)

/-- The inner content of a dollar-delimited token: `token[2:-2]` for a
display token, `token[1:-1]` otherwise. -/
def innerOf (tok : String) : String :=
  if "$$".data.isPrefixOf tok.data then strSlice 2 2 tok else strSlice 1 1 tok

/-- One step of Fix 2: restore stripped dollar delimiters of a missing
token whose inner content is still present undelimited (first occurrence
only).  The accumulator carries the current text and the log. -/
def fixDollarStep (acc : String × List String) (tok : String) : String × List String :=
  if tok.data.head? = some '$' ∧ tok.data.getLast? = some '$' then
    if containsStr (innerOf tok) acc.1 ∧ ¬ containsStr ("$" ++ innerOf tok ++ "$") acc.1 then
      (replaceFirstStr (innerOf tok) tok acc.1,
       acc.2 ++ ["Restored math delimiters: " ++ strTake 40 tok])
    else acc
  else acc

/-- Fix 2 over the missing-token set (the `missing.discard` mutation has no
further observable effect: `still_missing` is recomputed afterwards). -/
def fixDollar (missing : List String) (t : String) : String × List String :=
  missing.foldl fixDollarStep (t, [])

/-- The command vocabulary of Fix 3, in source order. -/
def fix3Cmds : List String :=
  ["frac", "sum", "prod", "int", "lim", "sqrt", "log", "ln",
   "sin", "cos", "tan", "exp", "infty", "partial", "nabla"]

/-- `re.sub` for the pattern `(?<!\\)cmd(?=[\s{(])`: replace each
occurrence of `cmd` not preceded by a backslash and followed by
whitespace, `\x7b` or `(` with `\cmd`.  Also reports whether any
occurrence was found (the `re.findall` emptiness test). -/
def scanCmdFix (fuel : Nat) (cmd : List Char) (prev : Option Char) (cs : List Char) :
    List Char × Bool :=
  match fuel, cs with
  | 0, cs => (cs, false)
  | _, [] => ([], false)
  | fuel + 1, c :: rest =>
    if prev ≠ some '\\' ∧ cmd.isPrefixOf (c :: rest) ∧
        (match (c :: rest).drop cmd.length with
         | d :: _ => pyIsSpace d || d = '{' || d = '('
         | [] => false) = true then
      let out := scanCmdFix fuel cmd cmd.getLast? ((c :: rest).drop cmd.length)
      ('\\' :: (cmd ++ out.1), true)
    else
      let out := scanCmdFix fuel cmd (some c) rest
      (c :: out.1, out.2)

/-- One step of Fix 3: `re.findall` emptiness test, then `re.sub`, for
one command name. -/
def fixBackStep (acc : String × List String) (cmd : String) : String × List String :=
  if (scanCmdFix (acc.1.data.length + 1) cmd.data none acc.1.data).2 then
    (String.mk (scanCmdFix (acc.1.data.length + 1) cmd.data none acc.1.data).1,
     acc.2 ++ ["Restored backslash for \\" ++ cmd])
  else acc

/-- Fix 3: restore the missing leading backslash of known math-function
names, one pass per command name. -/
def fixBackslash (t : String) : String × List String :=
  fix3Cmds.foldl fixBackStep (t, [])

/-- The set difference `orig_set - trans_set` (as a list in `origSet`
order; Python set iteration order is unspecified). -/
def missingTokens (origSet : List String) (translated : String) : List String :=
  let transSet := dedupF (extractMathTokens translated)
  origSet.filter (fun t => !(transSet.contains t))

/-- The three ordered rule-based auto-repairs of
`_check_formula_integrity`, returning the repaired text and the
`auto_fixed` log. -/
def repairTranslation (origSet : List String) (translated : String) :
    String × List String :=
  let missing := missingTokens origSet translated
  let h := fixHtml translated
  let d := fixDollar missing h.1
  let b := fixBackslash d.1
  (b.1, (h.2 ++ d.2) ++ b.2)

/-- `still_missing`, recomputed against the repaired text. -/
def stillMissingTokens (origSet : List String) (fixedText : String) : List String :=
  origSet.filter (fun t => !((dedupF (extractMathTokens fixedText)).contains t))

/-- `int((1.0 - m / n) * 100)` with exact arithmetic, for `m ≤ n` (and the
correct clamped behaviour for `m > n`, where the Python value is
non-positive and the `CheckResult` constructor clamps it to 0). -/
def ruleScore (n m : Nat) : Nat := (100 * (n - m)) / n

/-- Parsed response of `_llm_formula_check` (`none` at the call site
models a failed call or unparseable JSON). -/
structure FormulaJudgment where
  actuallyPreserved : Int
deriving DecidableEq

/-- `TranslationVerifier._check_formula_integrity`.  Returns the
`CheckResult` and the possibly repaired translation. -/
def checkFormulaIntegrity (cfg : Config) (original translated : String)
    (judge : Option FormulaJudgment) : CheckResult × String :=
  if extractMathTokens original = [] then (mkCheckResult 100 [] [] [], translated)
  else
    let origSet := dedupF (extractMathTokens original)
    let rt := repairTranslation origSet translated
    let still := stillMissingTokens origSet rt.1
    let n := origSet.length
    let score0 := ruleScore n still.length
    let issues0 := still.map (fun t => "Missing: " ++ strTake 60 t)
    let adj :=
      if 50 ≤ score0 ∧ score0 ≤ 90 ∧ "formula" ∈ cfg.verifyTypes then
        match judge with
        | some j =>
          if j.actuallyPreserved ≠ 0 then
            if 0 ≤ (still.length : Int) - j.actuallyPreserved then
              (ruleScore n (((still.length : Int) - j.actuallyPreserved).toNat),
               issues0 ++
                 ["LLM: " ++ toString j.actuallyPreserved ++ " formulas in equivalent form"])
            else (score0, issues0)
          else (score0, issues0)
        | none => (score0, issues0)
      else (score0, issues0)
    (mkCheckResult (adj.1 : Int) adj.2 rt.2 [], rt.1)

/-! ## Claim extraction (`TranslationVerifier._extract_claims`)

The raw LLM response text is the oracle input; an empty string models the
`_call_ollama` failure return. -/

/-- The two anchored `re.sub` cleanups applied to each line:
`^\d+[\.\)]\s*` and then `^[-*]\s*`. -/
def stripClaimNoise (cs : List Char) : List Char :=
  let ds := cs.takeWhile Char.isDigit
  let afterNum :=
    if ds ≠ [] then
      match cs.drop ds.length with
      | c :: rest => if c = '.' ∨ c = ')' then rest.dropWhile pyIsSpace else cs
      | [] => cs
    else cs
  match afterNum with
  | c :: rest => if c = '-' ∨ c = '*' then rest.dropWhile pyIsSpace else afterNum
  | [] => afterNum

/-- `_extract_claims`: split the stripped response into lines, clean each
line, keep non-empty lines longer than 15 characters, cap at 6. -/
def extractClaims (resp : String) : List String :=
  if resp = "" then []
  else
    let lines := splitOnSub (resp.data.length + 1) ['\n'] [] (pyStrip resp.data)
    (lines.foldl
      (fun acc line =>
        let l := stripClaimNoise (pyStrip line)
        if l ≠ [] ∧ l.length > 15 then acc ++ [String.mk l] else acc)
      []).take 6

/-! ## Module 2: semantic equivalence -/

/-- Parsed response of `_llm_semantic_score` after JSON extraction: a
non-empty dict, with optional `score` (already coerced by `int`) and
`reason` fields.  `none` models a failed call, unparseable JSON or an
empty dict (all falsy in the caller). -/
structure SemJudgment where
  score : Option Int
  reason : Option String

/-- Paragraph list: split on blank lines, strip, drop empties. -/
def splitParas (s : String) : List String :=
  (((splitOnSub (s.data.length + 1) "\n\n".data [] s.data).map pyStrip).filter
    (fun p => p ≠ [])).map String.mk

/-- Number of aligned paragraph pairs: `min(len(orig), len(trans), 8)`. -/
def semNumPairs (original translated : String) : Nat :=
  min (min (splitParas original).length (splitParas translated).length) 8

/-- The per-pair score taken from one parsed judgment: the clamp
`max(1, min(10, int(...)))` of `_llm_semantic_score` when the `score`
field is present, the `.get` default 7 when absent. -/
def psOf (j : SemJudgment) : Nat :=
  match j.score with
  | some s => (max 1 (min 10 s)).toNat
  | none => 7

/-- One iteration of the paragraph-comparison loop (default score 7 when
the judgment call fails; low/moderate issue strings below 5 and 7). -/
def semStep (sem : Nat → Option SemJudgment) (acc : List Nat × List String)
    (i : Nat) : List Nat × List String :=
  match sem i with
  | some j =>
    if psOf j < 5 then
      (acc.1 ++ [psOf j],
       acc.2 ++ ["Para " ++ toString (i + 1) ++ ": low semantic score " ++
         toString (psOf j) ++ "/10 - " ++ j.reason.getD "meaning may be distorted"])
    else if psOf j < 7 then
      (acc.1 ++ [psOf j],
       acc.2 ++ ["Para " ++ toString (i + 1) ++ ": moderate score " ++
         toString (psOf j) ++ "/10 - " ++ j.reason.getD "minor meaning shift"])
    else (acc.1 ++ [psOf j], acc.2)
  | none => (acc.1 ++ [7], acc.2)

/-- The paragraph-comparison loop of `_check_semantic_equivalence`. -/
def semLoop (sem : Nat → Option SemJudgment) (numPairs : Nat) :
    List Nat × List String :=
  (List.range numPairs).foldl (semStep sem) ([], [])

/-- `_check_glossary_terms` (the two quote characters of the source
f-string are written as `\x27`). -/
def checkGlossaryTerms (glossary : List (String × String))
    (original translated : String) : List String :=
  let origLower := strLower original
  (glossary.foldl
    (fun acc ek =>
      if containsStr (strLower ek.1) origLower then
        if ¬ containsStr ek.2 translated then
          if ek.1.length > 4 then
            acc ++ ["Glossary: \x27" ++ ek.1 ++ "\x27 (" ++ ek.2 ++
              ") not found in translation"]
          else acc
        else acc
      else acc)
    []).take 5

/-- The semantic score before the paragraph-count penalty: paragraph
average scaled to 0-100 (`int(avg * 10)`, exact arithmetic; default 70
for an empty score list), minus 3 per glossary issue, floored at 0. -/
def semanticBase (cfg : Config) (sem : Nat → Option SemJudgment)
    (original translated : String) : Int :=
  let lp := semLoop sem (semNumPairs original translated)
  let gloss := checkGlossaryTerms cfg.glossary original translated
  let base0 : Nat := if lp.1 ≠ [] then (10 * lp.1.sum) / lp.1.length else 70
  max 0 ((base0 : Int) - 3 * gloss.length)

/-- The issue list before the paragraph-count penalty: paragraph issues
then glossary issues. -/
def semIssuesBase (cfg : Config) (sem : Nat → Option SemJudgment)
    (original translated : String) : List String :=
  (semLoop sem (semNumPairs original translated)).2 ++
    checkGlossaryTerms cfg.glossary original translated

/-- `TranslationVerifier._check_semantic_equivalence`.  The
`len(orig_paras) > 0` guard of the source is vacuous in the non-early
branch. -/
def checkSemanticEquivalence (cfg : Config) (sem : Nat → Option SemJudgment)
    (original translated _title : String) : CheckResult :=
  let oP := splitParas original
  let tP := splitParas translated
  if oP = [] ∨ tP = [] then mkCheckResult 100 [] [] []
  else if 2 * tP.length < oP.length ∨ 2 * oP.length < tP.length then
    mkCheckResult (max 0 (semanticBase cfg sem original translated - 10))
      (semIssuesBase cfg sem original translated ++
        ["Paragraph count mismatch: " ++ toString oP.length ++ " orig vs " ++
          toString tP.length ++ " trans"]) [] []
  else
    mkCheckResult (semanticBase cfg sem original translated)
      (semIssuesBase cfg sem original translated) [] []

/-! ## Module 3: logic and facts -/

/-- Parsed response of `_verify_claim_preserved` (`preserved` defaults to
`True` via `.get` when the field is absent). -/
structure Preservation where
  preserved : Option Bool
  reason : Option String

/-- `TranslationVerifier._check_logic_facts`.  `pres i` is the parsed
response for the i-th checked claim; `internal` is the parsed issue list
of `_check_internal_logic` (`none` models a failed call or a response
without an `issues` field, which yields `[]`). -/
def checkLogicFacts (claimsResp : String) (pres : Nat → Option Preservation)
    (internal : Option (List String)) (_original _translated _title : String) :
    CheckResult :=
  let claims := extractClaims claimsResp
  if claims = [] then mkCheckResult 100 [] [] []
  else
    let flagged :=
      (claims.take 8).enum.foldl
        (fun acc ic =>
          match pres ic.1 with
          | some p =>
            if p.preserved.getD true = false then
              acc ++ [strTake 80 ic.2 ++ " → " ++
                p.reason.getD "claim not found in translation"]
            else acc
          | none => acc)
        []
    let logicIssues := (internal.getD []).take 3
    let score0 : Nat := ((claims.length - flagged.length) * 100) / claims.length
    mkCheckResult (max 0 ((score0 : Int) - 5 * logicIssues.length))
      logicIssues [] flagged

/-! ## Module 4: deep research -/

/-- Outcome of `_wikipedia_verify` for one claim: `none` models a search
with no usable terms or a `RequestException` (network failure); `some v`
models a completed lookup (`supported` is the truthiness of the
`supported` field, `note` the optional `note` field). -/
structure WikiVerdict where
  supported : Bool
  note : Option String

/-- One iteration of the claim-lookup loop of `_check_deep_research`: the
accumulator is `(verified, checked, flagged)`; a failed lookup leaves it
unchanged. -/
def researchStep (wiki : Nat → Option WikiVerdict) (acc : Nat × Nat × List String)
    (ic : Nat × String) : Nat × Nat × List String :=
  match wiki ic.1 with
  | some v =>
    if v.supported then (acc.1 + 1, acc.2.1 + 1, acc.2.2)
    else
      (acc.1, acc.2.1 + 1,
       acc.2.2 ++ ["Unverified: " ++ strTake 80 ic.2 ++ " → " ++
         v.note.getD "no Wikipedia match"])
  | none => acc

/-- `TranslationVerifier._check_deep_research`.  The accumulator is
`(verified, checked, flagged)`. -/
def checkDeepResearch (claimsResp : String) (wiki : Nat → Option WikiVerdict)
    (_original _translated _title : String) : CheckResult :=
  let claims := extractClaims claimsResp
  if claims = [] then mkCheckResult 100 [] [] []
  else
    let acc := (claims.take 5).enum.foldl (researchStep wiki) (0, 0, [])
    if acc.2.1 = 0 then
      mkCheckResult 80 ["No claims could be verified externally"] [] []
    else mkCheckResult (((acc.1 * 100) / acc.2.1 : Nat) : Int) [] [] acc.2.2

/-! ## Orchestration (`TranslationVerifier.verify_section`) -/

/-- One sequence of external-call responses for a whole verification run. -/
structure Oracle where
  formulaJudge : Option FormulaJudgment
  semantic : Nat → Option SemJudgment
  logicClaimsResp : String
  preserved : Nat → Option Preservation
  internalLogic : Option (List String)
  researchClaimsResp : String
  wiki : Nat → Option WikiVerdict

/-- A section record at the verifier boundary. -/
structure SectionData where
  contentOriginal : String
  contentTranslated : String
  titleOriginal : String
deriving DecidableEq

/-- One module entry of the verification report (the dict built from a
`CheckResult.to_dict`, or the skipped placeholder
`{"score": 100, "issues": [], "skipped": True}`). -/
structure ModuleEntry where
  score : Int
  issues : List String
  autoFixed : List String
  flagged : List String
  skipped : Bool
deriving DecidableEq

def entryOf (res : CheckResult) : ModuleEntry :=
  { score := res.score, issues := res.issues, autoFixed := res.auto_fixed,
    flagged := res.flagged, skipped := false }

def skippedEntry : ModuleEntry :=
  { score := 100, issues := [], autoFixed := [], flagged := [], skipped := true }

/-- The four module entries of a report. -/
structure ModuleEntries where
  formula : ModuleEntry
  semantic : ModuleEntry
  logic : ModuleEntry
  research : ModuleEntry
deriving DecidableEq

/-- `self.weights`, in dict insertion order. -/
def moduleWeights : List (String × ℚ) :=
  [("formula", 0.35), ("semantic", 0.30), ("logic", 0.20), ("research", 0.15)]

/-- `report[module]` for the four module names. -/
def ModuleEntries.get (r : ModuleEntries) (name : String) : ModuleEntry :=
  if name = "formula" then r.formula
  else if name = "semantic" then r.semantic
  else if name = "logic" then r.logic
  else r.research

/-- The aggregation loop: `(total_score, total_weight)` summed over the
non-skipped modules, in weight-dict order.  Python float arithmetic is
modelled by exact rational arithmetic. -/
def aggStep (r : ModuleEntries) (acc : ℚ × ℚ) (nw : String × ℚ) : ℚ × ℚ :=
  if (r.get nw.1).skipped then acc
  else (acc.1 + ((r.get nw.1).score : ℚ) * nw.2, acc.2 + nw.2)

def aggTotals (r : ModuleEntries) : ℚ × ℚ :=
  moduleWeights.foldl (aggStep r) (0, 0)

/-- Python `int()` truncation toward zero on an exact rational. -/
def pyTrunc (q : ℚ) : Int := if q < 0 then -Int.floor (-q) else Int.floor q

/-- The aggregate: `int(total_score / total_weight)` when any module ran,
100 otherwise. -/
def aggregateScore (r : ModuleEntries) : Int :=
  if 0 < (aggTotals r).2 then pyTrunc ((aggTotals r).1 / (aggTotals r).2) else 100

/-- A full verification report: the four module entries plus the
top-level aggregate score. -/
structure Report where
  entries : ModuleEntries
  score : Int
deriving DecidableEq

/-- Result of `verify_section`: the early `{"score": 100, "skipped": True}`
return for an empty original or translation, or a full report. -/
inductive VerifyOutcome where
  | skippedSec
  | report (r : Report)
deriving DecidableEq

/-- The four module entries computed by `TranslationVerifier.verify_section`.
The formula module may rewrite the translation used by the three later
modules (the source guards the in-place update with
`fixed_text != translated`, which has the same observable effect). -/
def verifyEntries (cfg : Config) (o : Oracle) (sec : SectionData) : ModuleEntries :=
  let fOut := checkFormulaIntegrity cfg sec.contentOriginal sec.contentTranslated
    o.formulaJudge
  let fEntry :=
    if "formula" ∈ cfg.verifyTypes then entryOf fOut.1 else skippedEntry
  let translated1 :=
    if "formula" ∈ cfg.verifyTypes then fOut.2 else sec.contentTranslated
  let sEntry :=
    if "semantic" ∈ cfg.verifyTypes then
      entryOf (checkSemanticEquivalence cfg o.semantic sec.contentOriginal
        translated1 sec.titleOriginal)
    else skippedEntry
  let lEntry :=
    if "logic" ∈ cfg.verifyTypes then
      entryOf (checkLogicFacts o.logicClaimsResp o.preserved o.internalLogic
        sec.contentOriginal translated1 sec.titleOriginal)
    else skippedEntry
  let rEntry :=
    if "research" ∈ cfg.verifyTypes then
      entryOf (checkDeepResearch o.researchClaimsResp o.wiki sec.contentOriginal
        translated1 sec.titleOriginal)
    else skippedEntry
  { formula := fEntry, semantic := sEntry, logic := lEntry, research := rEntry }

def verifySection (cfg : Config) (o : Oracle) (sec : SectionData) : VerifyOutcome :=
  if sec.contentOriginal = "" ∨ sec.contentTranslated = "" then .skippedSec
  else
    .report { entries := verifyEntries cfg o sec,
              score := aggregateScore (verifyEntries cfg o sec) }

/-! ## Duck-typed JSON post-processing in `_llm_semantic_score`

`parsed["score"] = max(1, min(10, int(parsed["score"])))` is executed on
any parsed dict that contains a `score` key; Python `int(...)` raises on a
non-numeric string, `None`, or other non-coercible values, and
`_llm_semantic_score` has no handler for that exception. -/

/-- A parsed JSON field value. -/
inductive JVal where
  | jnum (n : Int)
  | jstr (s : String)
  | jbool (b : Bool)
  | jnull
deriving DecidableEq

/-- Value of a decimal digit string. -/
def digitsVal (ds : List Char) : Nat :=
  ds.foldl (fun a c => 10 * a + (c.toNat - 48)) 0

/-- Python `int(s)` on a string: optional sign and digits after stripping
whitespace, otherwise a `ValueError`. -/
def pyIntOfStr (s : String) : Option Int :=
  let cs := pyStrip s.data
  let sd : Int × List Char :=
    match cs with
    | '-' :: r => (-1, r)
    | '+' :: r => (1, r)
    | _ => (1, cs)
  if sd.2 ≠ [] ∧ sd.2.all Char.isDigit then some (sd.1 * (digitsVal sd.2 : Int))
  else none

/-- Python `int(v)` on a JSON field value: numbers and booleans coerce,
numeric strings parse, everything else raises. -/
def pyIntCoerce : JVal → Option Int
  | .jnum n => some n
  | .jbool b => some (if b then 1 else 0)
  | .jstr s => pyIntOfStr s
  | .jnull => none

/-- In-place dict update `d[k] = v` for an existing key. -/
def assocSet (k : String) (v : JVal) : List (String × JVal) → List (String × JVal)
  | [] => []
  | p :: rest => if p.1 = k then (k, v) :: rest else p :: assocSet k v rest

/-- The tail of `_llm_semantic_score` after `_parse_json_response`:
`Except.error` models an uncaught Python exception escaping the method
(and hence `verify_section`); `.ok none` is the documented "no result". -/
def llmSemanticScorePost (parsed : Option (List (String × JVal))) :
    Except String (Option (List (String × JVal))) :=
  match parsed with
  | none => .ok none
  | some kvs =>
    match (if kvs ≠ [] then kvs.lookup "score" else none) with
    | some v =>
      match pyIntCoerce v with
      | some n => .ok (some (assocSet "score" (.jnum (max 1 (min 10 n))) kvs))
      | none => .error "uncaught ValueError or TypeError from int applied to the score field"
    | none => .ok (some kvs)

/-! ## Helper lemmas -/

theorem mkCheckResult_range (s : Int) (is af fl : List String) :
    0 ≤ (mkCheckResult s is af fl).score ∧ (mkCheckResult s is af fl).score ≤ 100 := by
  simp only [mkCheckResult]
  omega

theorem mkCheckResult_score_of_le (s : Nat) (h : s ≤ 100) (is af fl : List String) :
    (mkCheckResult (s : Int) is af fl).score = (s : Int) := by
  simp only [mkCheckResult]
  omega

theorem mkCheckResult_score_arg_free (s : Int) (i a f i2 a2 f2 : List String) :
    (mkCheckResult s i a f).score = (mkCheckResult s i2 a2 f2).score := rfl

theorem dedupF_nodup (l : List String) : (dedupF l).Nodup := by
  induction l with
  | nil => simp [dedupF]
  | cons x xs ih =>
    simp only [dedupF, List.nodup_cons]
    refine ⟨fun hx => ?_, ih.filter _⟩
    have := (List.mem_filter.mp hx).2
    simp at this

theorem dedupF_ne_nil (l : List String) (h : l ≠ []) : dedupF l ≠ [] := by
  cases l with
  | nil => exact absurd rfl h
  | cons x xs => simp [dedupF]

theorem ruleScore_le_100 (n m : Nat) (hn : n ≠ 0) : ruleScore n m ≤ 100 := by
  have h1 : 100 * (n - m) ≤ 100 * n := Nat.mul_le_mul_left 100 (Nat.sub_le n m)
  calc ruleScore n m ≤ 100 * n / n := Nat.div_le_div_right h1
    _ = 100 := Nat.mul_div_cancel 100 (Nat.pos_of_ne_zero hn)

theorem ruleScore_mono (n m m' : Nat) (h : m' ≤ m) : ruleScore n m ≤ ruleScore n m' :=
  Nat.div_le_div_right (Nat.mul_le_mul_left 100 (Nat.sub_le_sub_left h n))

theorem natDiv_eq_floor (a b : Nat) (hb : b ≠ 0) :
    ((a / b : Nat) : Int) = ⌊((a : ℚ)) / ((b : ℚ))⌋ := by
  have hb0 : 0 < b := Nat.pos_of_ne_zero hb
  have hmod := Nat.div_add_mod a b
  have hlt : a % b < b := Nat.mod_lt a hb0
  have h1 : (a / b) * b ≤ a := Nat.div_mul_le_self a b
  have h2 : a < b * (a / b) + b := by omega
  have hbq : (0 : ℚ) < (b : ℚ) := by exact_mod_cast hb0
  have hcast : ((((a / b : Nat) : Int)) : ℚ) = ((a / b : Nat) : ℚ) := by norm_cast
  symm
  rw [Int.floor_eq_iff]
  constructor
  · rw [le_div_iff₀ hbq, hcast]
    exact_mod_cast h1
  · rw [div_lt_iff₀ hbq, hcast]
    have he : (((a / b : Nat) : ℚ) + 1) * (b : ℚ) = (b : ℚ) * ((a / b : Nat) : ℚ) + (b : ℚ) := by
      ring
    rw [he]
    exact_mod_cast h2

theorem foldlFixed {α β : Type} (f : β → α → β) (l : List α) (b : β)
    (h : ∀ x ∈ l, ∀ acc, f acc x = acc) : l.foldl f b = b := by
  induction l generalizing b with
  | nil => rfl
  | cons x xs ih =>
    rw [List.foldl_cons, h x (by simp)]
    exact ih b (fun y hy acc => h y (by simp [hy]) acc)

theorem foldlInv {α β : Type} (P : β → Prop) (f : β → α → β)
    (h : ∀ b a, P b → P (f b a)) :
    ∀ (l : List α) (b : β), P b → P (l.foldl f b) := by
  intro l
  induction l with
  | nil => intro b hb; exact hb
  | cons x xs ih => intro b hb; exact ih (f b x) (h b x hb)

/-- Generic lemma about the log-accumulating repair folds: each step
either leaves the accumulator unchanged or appends a non-empty batch to
the log; hence the log only grows, and an unchanged log means an
unchanged text. -/
theorem foldlLog {α : Type} (step : (String × List String) → α → (String × List String))
    (hstep : ∀ acc x, step acc x = acc ∨
      ∃ t m, m ≠ [] ∧ step acc x = (t, acc.2 ++ m)) :
    ∀ (l : List α) (acc : String × List String),
      ((l.foldl step acc).2 = acc.2 → (l.foldl step acc).1 = acc.1) ∧
      ∃ s, (l.foldl step acc).2 = acc.2 ++ s := by
  intro l
  induction l with
  | nil => intro acc; exact ⟨fun _ => rfl, [], by simp⟩
  | cons x xs ih =>
    intro acc
    rw [List.foldl_cons]
    rcases hstep acc x with h | ⟨t, m, hm, h⟩
    · rw [h]; exact ih acc
    · obtain ⟨s, hs⟩ := (ih (step acc x)).2
      constructor
      · intro hlog
        rw [hs, h] at hlog
        have := congrArg List.length hlog
        simp at this
        exact absurd this.1 hm
      · exact ⟨m ++ s, by rw [hs, h]; simp⟩

theorem checkFormulaIntegrity_range (cfg : Config) (orig trans : String)
    (j : Option FormulaJudgment) :
    0 ≤ (checkFormulaIntegrity cfg orig trans j).1.score ∧
      (checkFormulaIntegrity cfg orig trans j).1.score ≤ 100 := by
  simp only [checkFormulaIntegrity]
  split
  · exact mkCheckResult_range _ _ _ _
  · exact mkCheckResult_range _ _ _ _

theorem checkSemanticEquivalence_range (cfg : Config) (sem : Nat → Option SemJudgment)
    (orig trans title : String) :
    0 ≤ (checkSemanticEquivalence cfg sem orig trans title).score ∧
      (checkSemanticEquivalence cfg sem orig trans title).score ≤ 100 := by
  simp only [checkSemanticEquivalence]
  split
  · exact mkCheckResult_range _ _ _ _
  · split
    · exact mkCheckResult_range _ _ _ _
    · exact mkCheckResult_range _ _ _ _

theorem checkLogicFacts_range (claimsResp : String) (pres : Nat → Option Preservation)
    (internal : Option (List String)) (orig trans title : String) :
    0 ≤ (checkLogicFacts claimsResp pres internal orig trans title).score ∧
      (checkLogicFacts claimsResp pres internal orig trans title).score ≤ 100 := by
  simp only [checkLogicFacts]
  split
  · exact mkCheckResult_range _ _ _ _
  · exact mkCheckResult_range _ _ _ _

theorem checkDeepResearch_range (claimsResp : String) (wiki : Nat → Option WikiVerdict)
    (orig trans title : String) :
    0 ≤ (checkDeepResearch claimsResp wiki orig trans title).score ∧
      (checkDeepResearch claimsResp wiki orig trans title).score ≤ 100 := by
  simp only [checkDeepResearch]
  split
  · exact mkCheckResult_range _ _ _ _
  · split
    · exact mkCheckResult_range _ _ _ _
    · exact mkCheckResult_range _ _ _ _

/-- Scores of a report entry are integers in `[0, 100]`. -/
def EntryBounded (e : ModuleEntry) : Prop := 0 ≤ e.score ∧ e.score ≤ 100

theorem entryOf_bounded (res : CheckResult) (h : 0 ≤ res.score ∧ res.score ≤ 100) :
    EntryBounded (entryOf res) := h

theorem skippedEntry_bounded : EntryBounded skippedEntry :=
  ⟨by norm_num [skippedEntry], by norm_num [skippedEntry]⟩

theorem get_bounded (r : ModuleEntries)
    (hf : EntryBounded r.formula) (hs : EntryBounded r.semantic)
    (hl : EntryBounded r.logic) (hr : EntryBounded r.research) :
    ∀ name, EntryBounded (r.get name) := by
  intro name
  unfold ModuleEntries.get
  split
  · exact hf
  · split
    · exact hs
    · split
      · exact hl
      · exact hr

theorem aggTotals_bound (r : ModuleEntries) (hb : ∀ name, EntryBounded (r.get name)) :
    0 ≤ (aggTotals r).2 ∧ 0 ≤ (aggTotals r).1 ∧
      (aggTotals r).1 ≤ 100 * (aggTotals r).2 := by
  have key : ∀ (ws : List (String × ℚ)), (∀ p ∈ ws, 0 ≤ p.2) →
      ∀ acc : ℚ × ℚ, 0 ≤ acc.2 → 0 ≤ acc.1 → acc.1 ≤ 100 * acc.2 →
      0 ≤ (ws.foldl (aggStep r) acc).2 ∧ 0 ≤ (ws.foldl (aggStep r) acc).1 ∧
        (ws.foldl (aggStep r) acc).1 ≤ 100 * (ws.foldl (aggStep r) acc).2 := by
    intro ws
    induction ws with
    | nil => exact fun _ acc h2 h1 hle => ⟨h2, h1, hle⟩
    | cons nw ws ih =>
      intro hws acc h2 h1 hle
      rw [List.foldl_cons]
      have hw : 0 ≤ nw.2 := hws nw (by simp)
      have hbs := hb nw.1
      have hb0 : (0 : ℚ) ≤ ((r.get nw.1).score : ℚ) := by exact_mod_cast hbs.1
      have hb100 : ((r.get nw.1).score : ℚ) ≤ 100 := by exact_mod_cast hbs.2
      refine ih (fun p hp => hws p (by simp [hp])) (aggStep r acc nw) ?_ ?_ ?_
      · unfold aggStep
        split
        · exact h2
        · dsimp only
          linarith
      · unfold aggStep
        split
        · exact h1
        · dsimp only
          have := mul_nonneg hb0 hw
          linarith
      · unfold aggStep
        split
        · exact hle
        · dsimp only
          have := mul_le_mul_of_nonneg_right hb100 hw
          linarith
  have hmw : ∀ p ∈ moduleWeights, (0 : ℚ) ≤ p.2 := by
    intro p hp
    simp only [moduleWeights, List.mem_cons, List.not_mem_nil, or_false] at hp
    rcases hp with rfl | rfl | rfl | rfl <;> norm_num
  simpa [aggTotals] using key moduleWeights hmw (0, 0) le_rfl le_rfl (by norm_num)

theorem pyTrunc_range (q : ℚ) (h0 : 0 ≤ q) (h100 : q ≤ 100) :
    0 ≤ pyTrunc q ∧ pyTrunc q ≤ 100 := by
  unfold pyTrunc
  rw [if_neg (not_lt.mpr h0)]
  constructor
  · exact Int.floor_nonneg.mpr h0
  · have h := Int.floor_le_floor h100
    have h2 : Int.floor (100 : ℚ) = 100 := by norm_num
    omega

theorem aggregateScore_range (r : ModuleEntries) (hb : ∀ name, EntryBounded (r.get name)) :
    0 ≤ aggregateScore r ∧ aggregateScore r ≤ 100 := by
  obtain ⟨h2, h1, hle⟩ := aggTotals_bound r hb
  unfold aggregateScore
  split
  · next hpos =>
    apply pyTrunc_range
    · exact div_nonneg h1 (le_of_lt hpos)
    · rw [div_le_iff₀ hpos]
      linarith
  · norm_num

theorem verifySection_report (cfg : Config) (o : Oracle) (sec : SectionData) (r : Report)
    (h : verifySection cfg o sec = .report r) :
    r.score = aggregateScore r.entries ∧ (∀ name, EntryBounded (r.entries.get name)) := by
  unfold verifySection at h
  split at h
  · exact absurd h (by simp)
  · injection h with h
    subst h
    refine ⟨rfl, get_bounded _ ?_ ?_ ?_ ?_⟩ <;> unfold verifyEntries <;> dsimp only <;> split
    · exact entryOf_bounded _ (checkFormulaIntegrity_range _ _ _ _)
    · exact skippedEntry_bounded
    · exact entryOf_bounded _ (checkSemanticEquivalence_range _ _ _ _ _)
    · exact skippedEntry_bounded
    · exact entryOf_bounded _ (checkLogicFacts_range _ _ _ _ _ _)
    · exact skippedEntry_bounded
    · exact entryOf_bounded _ (checkDeepResearch_range _ _ _ _ _)
    · exact skippedEntry_bounded

theorem checkFormula_none_eq (cfg : Config) (orig trans : String)
    (he : extractMathTokens orig ≠ []) :
    checkFormulaIntegrity cfg orig trans none =
      (mkCheckResult
        ((ruleScore (dedupF (extractMathTokens orig)).length
          (stillMissingTokens (dedupF (extractMathTokens orig))
            (repairTranslation (dedupF (extractMathTokens orig)) trans).1).length : Nat) : Int)
        ((stillMissingTokens (dedupF (extractMathTokens orig))
            (repairTranslation (dedupF (extractMathTokens orig)) trans).1).map
          (fun t => "Missing: " ++ strTake 60 t))
        (repairTranslation (dedupF (extractMathTokens orig)) trans).2
        [],
       (repairTranslation (dedupF (extractMathTokens orig)) trans).1) := by
  simp only [checkFormulaIntegrity, if_neg he]
  split
  · rfl
  · rfl

theorem fixHtml_log_nil (t : String) (h : (fixHtml t).2 = []) : (fixHtml t).1 = t := by
  simp only [fixHtml] at h ⊢
  rw [List.append_eq_nil] at h
  obtain ⟨ha, hb⟩ := h
  split at ha
  next h1 =>
    rw [if_pos h1] at hb ⊢
    split at hb
    next h2 => rw [if_pos h2]
    next h2 => exact absurd hb (by simp)
  next h1 => exact absurd ha (by simp)

theorem fixDollarStep_log (acc : String × List String) (tok : String) :
    fixDollarStep acc tok = acc ∨
      ∃ t m, m ≠ [] ∧ fixDollarStep acc tok = (t, acc.2 ++ m) := by
  unfold fixDollarStep
  split
  · split
    · right
      exact ⟨_, _, by simp, rfl⟩
    · left; rfl
  · left; rfl

theorem fixBackStep_log (acc : String × List String) (cmd : String) :
    fixBackStep acc cmd = acc ∨
      ∃ t m, m ≠ [] ∧ fixBackStep acc cmd = (t, acc.2 ++ m) := by
  unfold fixBackStep
  split
  · right
    exact ⟨_, _, by simp, rfl⟩
  · left; rfl

theorem fixDollar_log_nil (missing : List String) (t : String)
    (h : (fixDollar missing t).2 = []) : (fixDollar missing t).1 = t := by
  have := (foldlLog fixDollarStep fixDollarStep_log missing (t, [])).1
  exact this h

theorem fixBackslash_log_nil (t : String)
    (h : (fixBackslash t).2 = []) : (fixBackslash t).1 = t := by
  have := (foldlLog fixBackStep fixBackStep_log fix3Cmds (t, [])).1
  exact this h

theorem repairTranslation_log_nil (origSet : List String) (t : String)
    (h : (repairTranslation origSet t).2 = []) : (repairTranslation origSet t).1 = t := by
  unfold repairTranslation at h ⊢
  dsimp only at h ⊢
  rw [List.append_eq_nil, List.append_eq_nil] at h
  obtain ⟨⟨hh, hd⟩, hb⟩ := h
  have eh : (fixHtml t).1 = t := fixHtml_log_nil t hh
  rw [eh] at hd hb ⊢
  have ed : (fixDollar (missingTokens origSet t) t).1 = t := fixDollar_log_nil _ _ hd
  rw [ed] at hb ⊢
  exact fixBackslash_log_nil t hb

theorem psOf_le (j : SemJudgment) : psOf j ≤ 10 := by
  cases h : j.score with
  | none => simp [psOf, h]
  | some s =>
    simp only [psOf, h]
    omega

theorem semStep_le (sem : Nat → Option SemJudgment) (b : List Nat × List String)
    (a : Nat) (hb : ∀ x ∈ b.1, x ≤ 10) : ∀ x ∈ (semStep sem b a).1, x ≤ 10 := by
  cases h : sem a with
  | none =>
    simp only [semStep, h]
    intro x hx
    try dsimp only at hx
    rcases List.mem_append.mp hx with hh | hh
    · exact hb x hh
    · simp at hh
      omega
  | some j =>
    simp only [semStep, h]
    have hps := psOf_le j
    split
    · intro x hx
      try dsimp only at hx
      rcases List.mem_append.mp hx with hh | hh
      · exact hb x hh
      · simp at hh
        omega
    · split
      · intro x hx
        try dsimp only at hx
        rcases List.mem_append.mp hx with hh | hh
        · exact hb x hh
        · simp at hh
          omega
      · intro x hx
        try dsimp only at hx
        rcases List.mem_append.mp hx with hh | hh
        · exact hb x hh
        · simp at hh
          omega

theorem semLoop_scores_le (sem : Nat → Option SemJudgment) (numPairs : Nat) :
    ∀ x ∈ (semLoop sem numPairs).1, x ≤ 10 :=
  foldlInv (fun acc => ∀ x ∈ acc.1, x ≤ 10) (semStep sem) (semStep_le sem)
    (List.range numPairs) ([], []) (by simp)

theorem semanticBase_range (cfg : Config) (sem : Nat → Option SemJudgment)
    (orig trans : String) :
    0 ≤ semanticBase cfg sem orig trans ∧ semanticBase cfg sem orig trans ≤ 100 := by
  unfold semanticBase
  dsimp only
  refine ⟨le_max_left _ _, ?_⟩
  have hb : (if (semLoop sem (semNumPairs orig trans)).1 ≠ [] then
      (10 * (semLoop sem (semNumPairs orig trans)).1.sum) /
        (semLoop sem (semNumPairs orig trans)).1.length
    else 70) ≤ 100 := by
    split
    · next hne =>
      have hlen : 0 < (semLoop sem (semNumPairs orig trans)).1.length :=
        List.length_pos.mpr hne
      have hsum : (semLoop sem (semNumPairs orig trans)).1.sum ≤
          (semLoop sem (semNumPairs orig trans)).1.length * 10 := by
        have := List.sum_le_card_nsmul (semLoop sem (semNumPairs orig trans)).1 10
          (semLoop_scores_le sem (semNumPairs orig trans))
        simpa using this
      have h1 : 10 * (semLoop sem (semNumPairs orig trans)).1.sum ≤
          100 * (semLoop sem (semNumPairs orig trans)).1.length := by omega
      calc (10 * (semLoop sem (semNumPairs orig trans)).1.sum) /
            (semLoop sem (semNumPairs orig trans)).1.length
          ≤ (100 * (semLoop sem (semNumPairs orig trans)).1.length) /
            (semLoop sem (semNumPairs orig trans)).1.length := Nat.div_le_div_right h1
        _ = 100 := Nat.mul_div_cancel 100 hlen
    · norm_num
  omega

/-! ## Concrete inputs for witnesses and counterexamples -/

/-- The oracle in which every external call fails. -/
def oracleNone : Oracle :=
  { formulaJudge := none, semantic := fun _ => none, logicClaimsResp := "",
    preserved := fun _ => none, internalLogic := none, researchClaimsResp := "",
    wiki := fun _ => none }

def secW : SectionData :=
  { contentOriginal := "abc", contentTranslated := "def", titleOriginal := "t" }

/-- The report `verifySection` produces on `secW` with `oracleNone`. -/
def reportW : Report :=
  { entries :=
      { formula :=
          { score := 100, issues := [], autoFixed := [], flagged := [], skipped := false },
        semantic :=
          { score := 70, issues := [], autoFixed := [], flagged := [], skipped := false },
        logic :=
          { score := 100, issues := [], autoFixed := [], flagged := [], skipped := false },
        research :=
          { score := 100, issues := [], autoFixed := [], flagged := [], skipped := false } },
    score := 91 }

theorem get_formula (r : ModuleEntries) : r.get "formula" = r.formula := rfl

theorem get_semantic (r : ModuleEntries) : r.get "semantic" = r.semantic := rfl

theorem get_logic (r : ModuleEntries) : r.get "logic" = r.logic := rfl

theorem get_research (r : ModuleEntries) : r.get "research" = r.research := rfl

/-! ## The claims -/

/-- C1: for every section and every sequence of external-call responses,
the score of each module entry and the aggregate score in the verification
report are integers in [0, 100]; in particular the `CheckResult`
constructor clamps any supplied score into [0, 100]. -/
theorem c1_score_range (cfg : Config) (o : Oracle) (sec : SectionData) (r : Report)
    (h : verifySection cfg o sec = .report r) :
    ((0 ≤ r.entries.formula.score ∧ r.entries.formula.score ≤ 100) ∧
     (0 ≤ r.entries.semantic.score ∧ r.entries.semantic.score ≤ 100) ∧
     (0 ≤ r.entries.logic.score ∧ r.entries.logic.score ≤ 100) ∧
     (0 ≤ r.entries.research.score ∧ r.entries.research.score ≤ 100) ∧
     (0 ≤ r.score ∧ r.score ≤ 100)) ∧
    (∀ (s : Int) (is af fl : List String),
      0 ≤ (mkCheckResult s is af fl).score ∧ (mkCheckResult s is af fl).score ≤ 100) := by
  obtain ⟨hagg, hb⟩ := verifySection_report cfg o sec r h
  have hf := hb "formula"
  have hs := hb "semantic"
  have hl := hb "logic"
  have hr := hb "research"
  rw [get_formula] at hf
  rw [get_semantic] at hs
  rw [get_logic] at hl
  rw [get_research] at hr
  refine ⟨⟨hf, hs, hl, hr, ?_⟩, mkCheckResult_range⟩
  rw [hagg]
  exact aggregateScore_range r.entries hb

theorem verifyEntries_secW : verifyEntries cfgDefault oracleNone secW = reportW.entries := by
  decide

theorem aggregateScore_reportW : aggregateScore reportW.entries = 91 := by
  simp only [aggregateScore, aggTotals, moduleWeights, aggStep, List.foldl,
    get_formula, get_semantic, get_logic, get_research, reportW]
  norm_num [pyTrunc]

theorem verifySection_secW : verifySection cfgDefault oracleNone secW = .report reportW := by
  unfold verifySection
  rw [if_neg (by decide), verifyEntries_secW, aggregateScore_reportW]
  rfl

/-- Witness for C1: a full verification run on a concrete section with
every external call failing, plus a concrete clamped constructor call. -/
theorem c1_score_range_witness :
    (0 ≤ reportW.score ∧ reportW.score ≤ 100) ∧
    (0 ≤ (mkCheckResult 250 [] [] []).score ∧ (mkCheckResult 250 [] [] []).score ≤ 100) :=
  ⟨(c1_score_range cfgDefault oracleNone secW reportW verifySection_secW).1.2.2.2.2,
   (c1_score_range cfgDefault oracleNone secW reportW verifySection_secW).2 250 [] [] []⟩

/-- The module entries of the aggregate test vector of the spec:
formula 80, semantic 70, logic 100, research skipped. -/
def entriesC2 : ModuleEntries :=
  { formula := { score := 80, issues := [], autoFixed := [], flagged := [], skipped := false },
    semantic := { score := 70, issues := [], autoFixed := [], flagged := [], skipped := false },
    logic := { score := 100, issues := [], autoFixed := [], flagged := [], skipped := false },
    research := { score := 100, issues := [], autoFixed := [], flagged := [], skipped := true } }

def entriesAllSkipped : ModuleEntries :=
  { formula := skippedEntry, semantic := skippedEntry,
    logic := skippedEntry, research := skippedEntry }

/-- C2: the aggregate is the weights-renormalized average over exactly the
modules that ran (weights 0.35/0.30/0.20/0.15); with zero modules run the
aggregate is 100; and on module scores formula 80, semantic 70, logic 100
with research skipped it equals 81, which is
round((80*0.35 + 70*0.30 + 100*0.20) / (0.35 + 0.30 + 0.20)). -/
theorem c2_aggregate :
    (∀ (cfg : Config) (o : Oracle) (sec : SectionData) (r : Report),
      verifySection cfg o sec = .report r → r.score = aggregateScore r.entries) ∧
    (∀ e : ModuleEntries, e.formula.skipped = true → e.semantic.skipped = true →
      e.logic.skipped = true → e.research.skipped = true → aggregateScore e = 100) ∧
    (∀ e : ModuleEntries, e.formula.skipped = false → e.semantic.skipped = false →
      e.logic.skipped = false → e.research.skipped = true →
      aggregateScore e =
        pyTrunc (((e.formula.score : ℚ) * 0.35 + (e.semantic.score : ℚ) * 0.30 +
          (e.logic.score : ℚ) * 0.20) / (0.35 + 0.30 + 0.20))) ∧
    aggregateScore entriesC2 = 81 ∧
    round (((80 * 0.35 + 70 * 0.30 + 100 * 0.20) / (0.35 + 0.30 + 0.20) : ℚ)) = 81 := by
  refine ⟨?_, ?_, ?_, ?_, ?_⟩
  · intro cfg o sec r h
    exact (verifySection_report cfg o sec r h).1
  · intro e h1 h2 h3 h4
    simp only [aggregateScore, aggTotals, moduleWeights, List.foldl, aggStep,
      get_formula, get_semantic, get_logic, get_research, h1, h2, h3, h4]
    norm_num
  · intro e h1 h2 h3 h4
    simp only [aggregateScore, aggTotals, moduleWeights, List.foldl, aggStep,
      get_formula, get_semantic, get_logic, get_research, h1, h2, h3, h4]
    norm_num
  · simp only [aggregateScore, aggTotals, moduleWeights, List.foldl, aggStep,
      get_formula, get_semantic, get_logic, get_research, entriesC2]
    norm_num [pyTrunc]
  · rw [round_eq]
    norm_num

/-- Witness for C2: the two aggregate shapes applied at concrete entries. -/
theorem c2_aggregate_witness :
    aggregateScore entriesAllSkipped = 100 ∧
    aggregateScore entriesC2 =
      pyTrunc (((entriesC2.formula.score : ℚ) * 0.35 + (entriesC2.semantic.score : ℚ) * 0.30 +
        (entriesC2.logic.score : ℚ) * 0.20) / (0.35 + 0.30 + 0.20)) :=
  ⟨c2_aggregate.2.1 entriesAllSkipped rfl rfl rfl rfl,
   c2_aggregate.2.2.1 entriesC2 rfl rfl rfl rfl⟩

/-- C3: absence of checkable evidence yields a perfect score: with no math
tokens in the original the formula check returns score 100 with empty
issues and auto_fixed and the translation unchanged; with no extractable
claims the logic check and the research check each return score 100. -/
theorem c3_no_evidence_perfect (cfg : Config) (j : Option FormulaJudgment)
    (pres : Nat → Option Preservation) (internal : Option (List String))
    (wiki : Nat → Option WikiVerdict) (original translated title claimsResp : String) :
    (extractMathTokens original = [] →
      checkFormulaIntegrity cfg original translated j =
        (mkCheckResult 100 [] [] [], translated)) ∧
    (extractClaims claimsResp = [] →
      checkLogicFacts claimsResp pres internal original translated title =
          mkCheckResult 100 [] [] [] ∧
        checkDeepResearch claimsResp wiki original translated title =
          mkCheckResult 100 [] [] []) := by
  constructor
  · intro h
    simp [checkFormulaIntegrity, h]
  · intro h
    constructor
    · simp [checkLogicFacts, h]
    · simp [checkDeepResearch, h]

/-- Witness for C3 at a concrete token-free original and an empty claim
response. -/
theorem c3_no_evidence_perfect_witness :
    checkFormulaIntegrity cfgDefault "no math here" "t" none =
      (mkCheckResult 100 [] [] [], "t") ∧
    checkLogicFacts "" (fun _ => none) none "no math here" "t" "" =
      mkCheckResult 100 [] [] [] ∧
    checkDeepResearch "" (fun _ => none) "no math here" "t" "" =
      mkCheckResult 100 [] [] [] :=
  ⟨(c3_no_evidence_perfect cfgDefault none (fun _ => none) none (fun _ => none)
      "no math here" "t" "" "").1 (by decide),
   (c3_no_evidence_perfect cfgDefault none (fun _ => none) none (fun _ => none)
      "no math here" "t" "" "").2 (by decide)⟩

/-- The deduplicated token set of the original text. -/
def formulaOrigSet (original : String) : List String :=
  dedupF (extractMathTokens original)

/-- The repaired translation produced by the rule-based auto-fixes. -/
def formulaFixedText (original translated : String) : String :=
  (repairTranslation (formulaOrigSet original) translated).1

/-- The still-missing token set, recomputed against the repaired text. -/
def formulaStillMissing (original translated : String) : List String :=
  stillMissingTokens (formulaOrigSet original) (formulaFixedText original translated)

/-- C4: with a non-empty original token set, the rule-based formula score
is `100 * (1 - |still_missing| / |original_tokens|)` truncated to an
integer, with both cardinalities of deduplicated token sets and
still_missing recomputed against the repaired translation; each
still-missing token contributes exactly one issue entry. -/
theorem c4_formula_score (cfg : Config) (original translated : String)
    (h : extractMathTokens original ≠ []) :
    (checkFormulaIntegrity cfg original translated none).1.score =
      ⌊(100 * (1 - ((formulaStillMissing original translated).length : ℚ) /
        ((formulaOrigSet original).length : ℚ)) : ℚ)⌋ ∧
    (checkFormulaIntegrity cfg original translated none).1.issues =
      (formulaStillMissing original translated).map
        (fun t => "Missing: " ++ strTake 60 t) ∧
    (formulaStillMissing original translated).Nodup := by
  unfold formulaStillMissing formulaFixedText formulaOrigSet
  have hne : dedupF (extractMathTokens original) ≠ [] := dedupF_ne_nil _ h
  have hn : (dedupF (extractMathTokens original)).length ≠ 0 := by
    intro hh
    exact hne (List.length_eq_zero.mp hh)
  have hmn : (stillMissingTokens (dedupF (extractMathTokens original))
      (repairTranslation (dedupF (extractMathTokens original)) translated).1).length ≤
      (dedupF (extractMathTokens original)).length := by
    unfold stillMissingTokens
    exact List.length_filter_le _ _
  rw [checkFormula_none_eq cfg original translated h]
  refine ⟨?_, rfl, ?_⟩
  · rw [mkCheckResult_score_of_le _ (ruleScore_le_100 _ _ hn)]
    unfold ruleScore
    rw [natDiv_eq_floor _ _ hn]
    congr 1
    push_cast [Nat.cast_sub hmn]
    have hq : ((dedupF (extractMathTokens original)).length : ℚ) ≠ 0 := by
      exact_mod_cast hn
    field_simp
  · unfold stillMissingTokens
    exact (dedupF_nodup _).filter _

/-- Witness for C4 at the original `$x$` and the empty translation. -/
theorem c4_formula_score_witness :
    (checkFormulaIntegrity cfgDefault "$x$" "" none).1.score =
      ⌊(100 * (1 - ((formulaStillMissing "$x$" "").length : ℚ) /
        ((formulaOrigSet "$x$").length : ℚ)) : ℚ)⌋ ∧
    (checkFormulaIntegrity cfgDefault "$x$" "" none).1.issues =
      (formulaStillMissing "$x$" "").map (fun t => "Missing: " ++ strTake 60 t) ∧
    (formulaStillMissing "$x$" "").Nodup :=
  c4_formula_score cfgDefault "$x$" "" (by decide)

/-- C5 (amended): a second run of the Formula Checker on its own repaired
output can apply further auto-fixes (the counterexample restores a
backslash in run one, which makes a delimiter restoration possible only
in run two); whenever the second run applies no auto-fixes, its score
equals the first run score. -/
theorem c5_second_run_stable (cfg : Config) (original translated : String)
    (h : (checkFormulaIntegrity cfg original
        (checkFormulaIntegrity cfg original translated none).2 none).1.auto_fixed = []) :
    (checkFormulaIntegrity cfg original
        (checkFormulaIntegrity cfg original translated none).2 none).1.score =
      (checkFormulaIntegrity cfg original translated none).1.score := by
  by_cases he : extractMathTokens original = []
  · simp [checkFormulaIntegrity, he]
  · have h1 := checkFormula_none_eq cfg original translated he
    have h2run : (checkFormulaIntegrity cfg original translated none).2 =
        (repairTranslation (dedupF (extractMathTokens original)) translated).1 := by
      rw [h1]
    rw [h2run] at h ⊢
    have h2 := checkFormula_none_eq cfg original
      (repairTranslation (dedupF (extractMathTokens original)) translated).1 he
    rw [h2] at h ⊢
    have haf : (repairTranslation (dedupF (extractMathTokens original))
        (repairTranslation (dedupF (extractMathTokens original)) translated).1).2 = [] := h
    have hfix := repairTranslation_log_nil _ _ haf
    rw [h1, hfix]
    exact mkCheckResult_score_arg_free _ _ _ _ _ _ _

set_option maxRecDepth 100000 in
/-- C5 counterexample: on an original `$\frac{a}{b}$` and a translation
`frac{a}{b}`, the first run scores 25 and restores only the backslash; the
second run, on the repaired output, applies one more auto-fix (restoring
the math delimiters) and changes the score to 100 — the claimed
idempotence fails. -/
theorem c5_counterexample :
    (checkFormulaIntegrity cfgDefault "$\\frac\x7ba\x7d\x7bb\x7d$"
      "frac\x7ba\x7d\x7bb\x7d" none).1.score = 25 ∧
    (checkFormulaIntegrity cfgDefault "$\\frac\x7ba\x7d\x7bb\x7d$"
        (checkFormulaIntegrity cfgDefault "$\\frac\x7ba\x7d\x7bb\x7d$"
          "frac\x7ba\x7d\x7bb\x7d" none).2 none).1.auto_fixed =
      ["Restored math delimiters: $\\frac\x7ba\x7d\x7bb\x7d$"] ∧
    (checkFormulaIntegrity cfgDefault "$\\frac\x7ba\x7d\x7bb\x7d$"
        (checkFormulaIntegrity cfgDefault "$\\frac\x7ba\x7d\x7bb\x7d$"
          "frac\x7ba\x7d\x7bb\x7d" none).2 none).1.score = 100 := by
  decide

set_option maxRecDepth 100000 in
/-- Witness for the amended C5 at a concrete input on which the second
run applies no auto-fixes. -/
theorem c5_second_run_stable_witness :
    (checkFormulaIntegrity cfgDefault "$x$"
        (checkFormulaIntegrity cfgDefault "$x$" "hello" none).2 none).1.score =
      (checkFormulaIntegrity cfgDefault "$x$" "hello" none).1.score :=
  c5_second_run_stable cfgDefault "$x$" "hello" (by decide)

def origC6 : String := "The number $1729 = 1^3+12^3$ is famous."

def transC6 : String := "The number 1729 = 1^3+12^3 is famous."

set_option maxRecDepth 100000 in
/-- C6: a translation that drops the dollar delimiters around
`$1729 = 1^3+12^3$` but keeps the inner content is repaired: the
delimiters are reinserted, the token sets match again, the score returns
to 100, and exactly one auto_fixed entry describes the restoration. -/
theorem c6_roundtrip :
    checkFormulaIntegrity cfgDefault origC6 transC6 none =
      (mkCheckResult 100 [] ["Restored math delimiters: $1729 = 1^3+12^3$"] [], origC6) ∧
    dedupF (extractMathTokens (checkFormulaIntegrity cfgDefault origC6 transC6 none).2) =
      dedupF (extractMathTokens origC6) := by
  decide

/-- C7: if claims were extracted but every knowledge-base lookup fails, so
zero claims could be checked, the research check returns score 80 with
exactly one explanatory issue (and, being a total function, never an
exception or score 0). -/
theorem c7_external_failure (claimsResp : String) (wiki : Nat → Option WikiVerdict)
    (original translated title : String)
    (hne : extractClaims claimsResp ≠ [])
    (hfail : ∀ i, wiki i = none) :
    checkDeepResearch claimsResp wiki original translated title =
      mkCheckResult 80 ["No claims could be verified externally"] [] [] := by
  have hstep : ∀ ic ∈ ((extractClaims claimsResp).take 5).enum,
      ∀ acc, researchStep wiki acc ic = acc := by
    intro ic _ acc
    unfold researchStep
    rw [hfail ic.1]
  simp only [checkDeepResearch, if_neg hne]
  rw [foldlFixed (researchStep wiki) _ _ hstep]
  rfl

/-- Witness for C7: one extracted claim, all lookups failing. -/
theorem c7_external_failure_witness :
    checkDeepResearch "This is a sufficiently long claim line." (fun _ => none)
        "o" "t" "" = mkCheckResult 80 ["No claims could be verified externally"] [] [] :=
  c7_external_failure "This is a sufficiently long claim line." (fun _ => none)
    "o" "t" "" (by decide) (fun _ => rfl)

/-- C8: whenever both sides have at least one paragraph and the
translated/original paragraph-count ratio is strictly below 0.5 or
strictly above 2.0, exactly 10 points are subtracted from the semantic
score (floored at 0) and a paragraph-count-mismatch issue is recorded. -/
theorem c8_paragraph_penalty (cfg : Config) (sem : Nat → Option SemJudgment)
    (original translated title : String)
    (ho : splitParas original ≠ []) (ht : splitParas translated ≠ [])
    (hmis : 2 * (splitParas translated).length < (splitParas original).length ∨
      2 * (splitParas original).length < (splitParas translated).length) :
    checkSemanticEquivalence cfg sem original translated title =
      mkCheckResult (max 0 (semanticBase cfg sem original translated - 10))
        (semIssuesBase cfg sem original translated ++
          ["Paragraph count mismatch: " ++ toString (splitParas original).length ++
            " orig vs " ++ toString (splitParas translated).length ++ " trans"]) [] [] ∧
    (checkSemanticEquivalence cfg sem original translated title).score =
      max 0 (semanticBase cfg sem original translated - 10) ∧
    ("Paragraph count mismatch: " ++ toString (splitParas original).length ++
        " orig vs " ++ toString (splitParas translated).length ++ " trans") ∈
      (checkSemanticEquivalence cfg sem original translated title).issues := by
  have hor : ¬(splitParas original = [] ∨ splitParas translated = []) := by
    rintro (h | h)
    exacts [ho h, ht h]
  have heq : checkSemanticEquivalence cfg sem original translated title =
      mkCheckResult (max 0 (semanticBase cfg sem original translated - 10))
        (semIssuesBase cfg sem original translated ++
          ["Paragraph count mismatch: " ++ toString (splitParas original).length ++
            " orig vs " ++ toString (splitParas translated).length ++ " trans"]) [] [] := by
    simp only [checkSemanticEquivalence, if_neg hor, if_pos hmis]
  refine ⟨heq, ?_, ?_⟩
  · rw [heq]
    have hb := semanticBase_range cfg sem original translated
    simp only [mkCheckResult]
    omega
  · rw [heq]
    simp [mkCheckResult]

/-- Witness for C8: an original with 4 paragraphs against a translation
with 1 paragraph (ratio 0.25) triggers the 10-point penalty. -/
theorem c8_paragraph_penalty_witness :
    (checkSemanticEquivalence cfgDefault (fun _ => none) "a\n\nb\n\nc\n\nd" "e" "t").score =
      max 0 (semanticBase cfgDefault (fun _ => none) "a\n\nb\n\nc\n\nd" "e" - 10) :=
  (c8_paragraph_penalty cfgDefault (fun _ => none) "a\n\nb\n\nc\n\nd" "e" "t"
    (by decide) (by decide) (by decide)).2.1

/-- C9 (code bug): the duck-typed post-processing of
`_llm_semantic_score` applies Python `int()` to the `score` field of any
parsed response dict; on the syntactically valid JSON response
`{"score": "high", "reason": "fine"}` this raises an uncaught exception
(modelled as `Except.error`) instead of treating the malformed response
as "no result", so not every verification path terminates with a
well-formed report.  A parse failure (`none`) and a numeric score are
handled as documented. -/
theorem c9_semantic_type_crash :
    llmSemanticScorePost (some [("score", JVal.jstr "high"), ("reason", JVal.jstr "fine")]) =
      Except.error "uncaught ValueError or TypeError from int applied to the score field" ∧
    llmSemanticScorePost none = Except.ok none ∧
    llmSemanticScorePost (some [("score", JVal.jnum 23)]) =
      Except.ok (some [("score", JVal.jnum 10)]) :=
  ⟨rfl, rfl, rfl⟩

/-- C10: in the ambiguous band the advisory adjustment never lowers the
score: with a rule-based score in [50, 90] and a judgment reporting a
non-negative `actually_preserved` count, the adjusted score is at least
the rule-based score; a judgment reporting zero, or more preserved tokens
than are still missing, leaves the score unchanged. -/
theorem c10_llm_no_decrease (cfg : Config) (original translated : String)
    (j : FormulaJudgment)
    (hvt : "formula" ∈ cfg.verifyTypes)
    (hlo : 50 ≤ (checkFormulaIntegrity cfg original translated none).1.score)
    (hhi : (checkFormulaIntegrity cfg original translated none).1.score ≤ 90)
    (hj : 0 ≤ j.actuallyPreserved) :
    (checkFormulaIntegrity cfg original translated none).1.score ≤
      (checkFormulaIntegrity cfg original translated (some j)).1.score ∧
    ((j.actuallyPreserved = 0 ∨
        ((formulaStillMissing original translated).length : Int) < j.actuallyPreserved) →
      (checkFormulaIntegrity cfg original translated (some j)).1.score =
        (checkFormulaIntegrity cfg original translated none).1.score) := by
  unfold formulaStillMissing formulaFixedText formulaOrigSet
  by_cases he : extractMathTokens original = []
  · exfalso
    have h100 : (checkFormulaIntegrity cfg original translated none).1.score = 100 := by
      simp only [checkFormulaIntegrity, if_pos he]
      rfl
    omega
  · have hne : dedupF (extractMathTokens original) ≠ [] := dedupF_ne_nil _ he
    have hn0 : (dedupF (extractMathTokens original)).length ≠ 0 := by
      intro hh
      exact hne (List.length_eq_zero.mp hh)
    have hscore_none : (checkFormulaIntegrity cfg original translated none).1.score =
        ((ruleScore (dedupF (extractMathTokens original)).length
          (stillMissingTokens (dedupF (extractMathTokens original))
            (repairTranslation (dedupF (extractMathTokens original)) translated).1).length :
          Nat) : Int) := by
      rw [checkFormula_none_eq cfg original translated he]
      exact mkCheckResult_score_of_le _ (ruleScore_le_100 _ _ hn0) _ _ _
    rw [hscore_none] at hlo hhi
    have hband : 50 ≤ ruleScore (dedupF (extractMathTokens original)).length
        (stillMissingTokens (dedupF (extractMathTokens original))
          (repairTranslation (dedupF (extractMathTokens original)) translated).1).length ∧
        ruleScore (dedupF (extractMathTokens original)).length
          (stillMissingTokens (dedupF (extractMathTokens original))
            (repairTranslation (dedupF (extractMathTokens original)) translated).1).length ≤
          90 := by omega
    have hsome : (checkFormulaIntegrity cfg original translated (some j)).1.score =
        if j.actuallyPreserved ≠ 0 then
          if 0 ≤ ((stillMissingTokens (dedupF (extractMathTokens original))
              (repairTranslation (dedupF (extractMathTokens original)) translated).1).length :
              Int) - j.actuallyPreserved then
            ((ruleScore (dedupF (extractMathTokens original)).length
              ((((stillMissingTokens (dedupF (extractMathTokens original))
                (repairTranslation (dedupF (extractMathTokens original)) translated).1).length :
                Int) - j.actuallyPreserved).toNat) : Nat) : Int)
          else
            ((ruleScore (dedupF (extractMathTokens original)).length
              (stillMissingTokens (dedupF (extractMathTokens original))
                (repairTranslation (dedupF (extractMathTokens original)) translated).1).length :
              Nat) : Int)
        else
          ((ruleScore (dedupF (extractMathTokens original)).length
            (stillMissingTokens (dedupF (extractMathTokens original))
              (repairTranslation (dedupF (extractMathTokens original)) translated).1).length :
            Nat) : Int) := by
      have hcond : 50 ≤ ruleScore (dedupF (extractMathTokens original)).length
          (stillMissingTokens (dedupF (extractMathTokens original))
            (repairTranslation (dedupF (extractMathTokens original)) translated).1).length ∧
          ruleScore (dedupF (extractMathTokens original)).length
            (stillMissingTokens (dedupF (extractMathTokens original))
              (repairTranslation (dedupF (extractMathTokens original)) translated).1).length ≤
            90 ∧ "formula" ∈ cfg.verifyTypes := ⟨hband.1, hband.2, hvt⟩
      simp only [checkFormulaIntegrity, if_neg he, if_pos hcond]
      by_cases hap : j.actuallyPreserved ≠ 0
      · by_cases hge : 0 ≤ ((stillMissingTokens (dedupF (extractMathTokens original))
            (repairTranslation (dedupF (extractMathTokens original)) translated).1).length :
            Int) - j.actuallyPreserved
        · simp only [if_pos hap, if_pos hge]
          exact mkCheckResult_score_of_le _ (ruleScore_le_100 _ _ hn0) _ _ _
        · simp only [if_pos hap, if_neg hge]
          exact mkCheckResult_score_of_le _ (ruleScore_le_100 _ _ hn0) _ _ _
      · simp only [if_neg hap]
        exact mkCheckResult_score_of_le _ (ruleScore_le_100 _ _ hn0) _ _ _
    rw [hscore_none, hsome]
    constructor
    · by_cases hap : j.actuallyPreserved ≠ 0
      · by_cases hge : 0 ≤ ((stillMissingTokens (dedupF (extractMathTokens original))
            (repairTranslation (dedupF (extractMathTokens original)) translated).1).length :
            Int) - j.actuallyPreserved
        · simp only [if_pos hap, if_pos hge]
          have hle : ((((stillMissingTokens (dedupF (extractMathTokens original))
              (repairTranslation (dedupF (extractMathTokens original)) translated).1).length :
              Int) - j.actuallyPreserved).toNat) ≤
              (stillMissingTokens (dedupF (extractMathTokens original))
                (repairTranslation (dedupF (extractMathTokens original)) translated).1).length := by
            omega
          exact_mod_cast ruleScore_mono _ _ _ hle
        · simp only [if_pos hap, if_neg hge]
          exact le_refl _
      · simp only [if_neg hap]
        exact le_refl _
    · intro hcase
      by_cases hap : j.actuallyPreserved ≠ 0
      · by_cases hge : 0 ≤ ((stillMissingTokens (dedupF (extractMathTokens original))
            (repairTranslation (dedupF (extractMathTokens original)) translated).1).length :
            Int) - j.actuallyPreserved
        · rcases hcase with h0 | hlt
          · exact absurd h0 hap
          · exfalso
            omega
        · simp only [if_pos hap, if_neg hge]
      · simp only [if_neg hap]

set_option maxRecDepth 100000 in
/-- Witness for C10: original `$x$ $y$` and translation `$x$` give a
rule-based score of 50; the judgment reporting one preserved token raises
the score to 75. -/
theorem c10_llm_no_decrease_witness :
    (checkFormulaIntegrity cfgDefault "$x$ $y$" "$x$" none).1.score ≤
      (checkFormulaIntegrity cfgDefault "$x$ $y$" "$x$" (some ⟨1⟩)).1.score :=
  (c10_llm_no_decrease cfgDefault "$x$ $y$" "$x$" ⟨1⟩ (by decide) (by decide)
    (by decide) (by decide)).1
